import Mathlib

/-!
Shallow embedding of the specbridge OpenAPI-to-tool compiler and
request-execution pipeline (TypeScript sources: utils/openapi-parser.ts,
utils/http-client.ts, utils/auth.ts), together with proofs of the
specification claims about tool naming, parameter extraction, credential
resolution, request construction and response formatting.

Strings are modelled as lists of characters (`Str`) so that the character
level operations of the source (split, filter, replace-first, percent
encoding) can be reasoned about directly.
-/

set_option maxHeartbeats 1000000

abbrev Str := List Char

/-- Truthiness of an optional JS string: absent and the empty string are falsy. -/
def strTruthy : Option Str → Bool
  | none => false
  | some s => !s.isEmpty

/-- Append-based flat map over lists, used to model character expansions. -/
def concatMap (f : α → List β) : List α → List β
  | [] => []
  | x :: xs => f x ++ concatMap f xs

/-- JavaScript runtime values as far as the pipeline inspects them:
null, booleans, (integer) numbers, strings, arrays and plain objects. -/
inductive JsValue where
  | vNull : JsValue
  | vBool : Bool → JsValue
  | vNum : Int → JsValue
  | vStr : Str → JsValue
  | vArr : List JsValue → JsValue
  | vObj : List (Str × JsValue) → JsValue

instance : Inhabited JsValue := ⟨.vNull⟩

/-- JS truthiness of a value. -/
def jsTruthy : JsValue → Bool
  | .vNull => false
  | .vBool b => b
  | .vNum n => n != 0
  | .vStr s => !s.isEmpty
  | .vArr _ => true
  | .vObj _ => true

/-- Truthiness of an optional JS value: absence (undefined) is falsy. -/
def valTruthy : Option JsValue → Bool
  | none => false
  | some v => jsTruthy v

/-- Decimal digits of a natural number, most significant first
(structural recursion on a fuel argument that bounds the digit count). -/
def natDigitsAux : Nat → Nat → Str
  | 0, _ => []
  | fuel + 1, n =>
    if n < 10 then [Char.ofNat (48 + n)]
    else natDigitsAux fuel (n / 10) ++ [Char.ofNat (48 + n % 10)]

/-- Decimal rendering of a natural number. -/
def natToStr (n : Nat) : Str := natDigitsAux (n + 1) n

/-- Decimal rendering of an integer (JS `String(number)` for integers). -/
def intToStr : Int → Str
  | .ofNat n => natToStr n
  | .negSucc n => '-' :: natToStr (n + 1)

example : natToStr 404 = "404".data := by decide
example : natToStr 0 = "0".data := by decide
example : intToStr (-42) = "-42".data := by decide

/-- Lowercase hexadecimal digit characters (as produced by JSON escaping). -/
def hexDigitChar (n : Nat) : Char := "0123456789abcdef".data.getD n '0'

/-- Uppercase hexadecimal digit characters (as produced by percent encoding). -/
def hexDigitCharUpper (n : Nat) : Char := "0123456789ABCDEF".data.getD n '0'

/-- JSON string escaping of one character, following `JSON.stringify`:
quote, backslash and the common control characters get two-character
escapes, other control characters get a `\u00xy` escape. -/
def escapeJsonChar (c : Char) : Str :=
  if c = '"' then ['\\', '"']
  else if c = '\\' then ['\\', '\\']
  else if c = '\n' then ['\\', 'n']
  else if c = '\r' then ['\\', 'r']
  else if c = '\t' then ['\\', 't']
  else if c = Char.ofNat 8 then ['\\', 'b']
  else if c = Char.ofNat 12 then ['\\', 'f']
  else if c.toNat < 32 then
    ['\\', 'u', '0', '0', hexDigitChar (c.toNat / 16), hexDigitChar (c.toNat % 16)]
  else [c]

/-- JSON rendering of a string: double quotes around the escaped characters. -/
def quoteJson (s : Str) : Str := '"' :: concatMap escapeJsonChar s ++ ['"']

/-- Two spaces of indentation per level, as in `JSON.stringify(v, null, 2)`. -/
def indentStr (lvl : Nat) : Str := List.replicate (2 * lvl) ' '

/-- Join rendered items with a separator. -/
def intercalateStr (sep : Str) : List Str → Str
  | [] => []
  | [x] => x
  | x :: y :: rest => x ++ sep ++ intercalateStr sep (y :: rest)

/-- Layout of a non-empty JSON container at an indentation level: opening
bracket, each item on its own more-indented line, closing bracket on a
line indented at the container level. -/
def wrapContainer (opening closing : Char) (lvl : Nat) (items : List Str) : Str :=
  opening :: '\n' :: indentStr (lvl + 1) ++
    intercalateStr (',' :: '\n' :: indentStr (lvl + 1)) items ++
    '\n' :: (indentStr lvl ++ [closing])

mutual

/-- `JSON.stringify(v, null, 2)` at a given indentation level. -/
def stringifyAt (lvl : Nat) : JsValue → Str
  | .vNull => "null".data
  | .vBool true => "true".data
  | .vBool false => "false".data
  | .vNum n => intToStr n
  | .vStr s => quoteJson s
  | .vArr [] => "[]".data
  | .vArr (x :: xs) =>
    wrapContainer '[' ']' lvl (stringifyItems (lvl + 1) (x :: xs))
  | .vObj [] => ['{', '}']
  | .vObj (f :: fs) =>
    wrapContainer '{' '}' lvl (stringifyFields (lvl + 1) (f :: fs))

/-- Rendered array elements. -/
def stringifyItems (lvl : Nat) : List JsValue → List Str
  | [] => []
  | v :: vs => stringifyAt lvl v :: stringifyItems lvl vs

/-- Rendered object members, `"key": value`. -/
def stringifyFields (lvl : Nat) : List (Str × JsValue) → List Str
  | [] => []
  | (k, v) :: fs => (quoteJson k ++ ':' :: ' ' :: stringifyAt lvl v) :: stringifyFields lvl fs

end

/-- `JSON.stringify(v, null, 2)`: pretty JSON with two-space indentation. -/
def jsonStringify2 (v : JsValue) : Str := stringifyAt 0 v

example :
    jsonStringify2 (.vObj [("message".data, .vStr "not found".data)]) =
      ('{' :: "\n  \"message\": \"not found\"\n".data ++ ['}']) := by decide

mutual

/-- JS `String(v)` string coercion: strings pass through, numbers and
booleans and null render their literal forms, arrays join their elements
with commas (null elements render empty), objects render the fixed tag. -/
def jsToString : JsValue → Str
  | .vNull => "null".data
  | .vBool true => "true".data
  | .vBool false => "false".data
  | .vNum n => intToStr n
  | .vStr s => s
  | .vArr xs => jsToStringItems xs
  | .vObj _ => "[object Object]".data

/-- Array-join rendering used by `String(array)`: elements separated by
commas, with null elements rendering as the empty string. -/
def jsToStringItems : List JsValue → Str
  | [] => []
  | [.vNull] => []
  | [v] => jsToString v
  | .vNull :: w :: rest => ',' :: jsToStringItems (w :: rest)
  | v :: w :: rest => jsToString v ++ ',' :: jsToStringItems (w :: rest)

end

example : jsToString (.vNum 42) = "42".data := by decide
example : jsToString (.vArr [.vNum 1, .vNull, .vStr "a".data]) = "1,,a".data := by decide

/-- UTF-8 bytes of one scalar value. -/
def utf8Bytes (c : Char) : List Nat :=
  let n := c.toNat
  if n < 128 then [n]
  else if n < 2048 then [192 + n / 64, 128 + n % 64]
  else if n < 65536 then [224 + n / 4096, 128 + n / 64 % 64, 128 + n % 64]
  else [240 + n / 262144, 128 + n / 4096 % 64, 128 + n / 64 % 64, 128 + n % 64]

/-- ASCII letters and digits. -/
def isAlphaNumAscii (c : Char) : Bool :=
  ('a' ≤ c && c ≤ 'z') || ('A' ≤ c && c ≤ 'Z') || ('0' ≤ c && c ≤ '9')

/-- Characters `encodeURIComponent` leaves unescaped: ASCII alphanumerics
and `-_.!~*'()`. -/
def isUriUnreserved (c : Char) : Bool :=
  isAlphaNumAscii c ||
    ['-', '_', '.', '!', '~', '*', Char.ofNat 39, '(', ')'].contains c

/-- One percent-encoded byte, `%XY` with uppercase hexadecimal digits. -/
def percentByte (b : Nat) : Str :=
  ['%', hexDigitCharUpper (b / 16), hexDigitCharUpper (b % 16)]

/-- JS `encodeURIComponent`: unreserved characters pass through, every
other character is replaced by the percent-encoding of its UTF-8 bytes. -/
def encodeURIComponent (s : Str) : Str :=
  concatMap (fun c =>
    if isUriUnreserved c then [c] else concatMap percentByte (utf8Bytes c)) s

example : encodeURIComponent "a b/{c}".data = "a%20b%2F%7Bc%7D".data := by decide

/-- The base64 alphabet. -/
def base64Char (n : Nat) : Char :=
  "ABCDEFGHIJKLMNOPQRSTUVWXYZabcdefghijklmnopqrstuvwxyz0123456789+/".data.getD n 'A'

/-- Standard base64 of a byte sequence, with `=` padding
(`Buffer.from(s).toString('base64')`). -/
def base64Encode : List Nat → Str
  | [] => []
  | [b1] => [base64Char (b1 / 4), base64Char (b1 % 4 * 16), '=', '=']
  | [b1, b2] =>
    [base64Char (b1 / 4), base64Char (b1 % 4 * 16 + b2 / 16), base64Char (b2 % 16 * 4), '=']
  | b1 :: b2 :: b3 :: rest =>
    base64Char (b1 / 4) :: base64Char (b1 % 4 * 16 + b2 / 16) ::
      base64Char (b2 % 16 * 4 + b3 / 64) :: base64Char (b3 % 64) :: base64Encode rest

/-- base64 of the UTF-8 bytes of a string. -/
def base64OfStr (s : Str) : Str := base64Encode (concatMap utf8Bytes s)

example : base64OfStr "u:p".data = "dTpw".data := by decide

/-! ## Description compiler (`utils/openapi-parser.ts`) -/

/-- JS `String.prototype.split` on a single separator character: every
separator occurrence cuts, empty segments are kept. -/
def splitOnChar (sep : Char) : Str → List Str
  | [] => [[]]
  | c :: cs =>
    match splitOnChar sep cs with
    | [] => [[]]
    | h :: t => if c = sep then [] :: h :: t else (c :: h) :: t

example : splitOnChar '/' "/a/{id}/b".data =
    [[], "a".data, ('{' :: "id".data ++ ['}']), "b".data] := by decide

/-- `generateToolName` (openapi-parser.ts): namespace and operationId when
the operation carries a (truthy) identifier, otherwise namespace, method
and a path-derived name: split the template on `/`, drop empty segments
and segments starting with a brace, strip non-alphanumerics from each
remaining segment, join with underscores, falling back to `root` when the
joined name is empty. -/
def generateToolName (apiName : Str) (operationId : Option Str)
    (pathTemplate : Str) (method : Str) : Str :=
  if strTruthy operationId then
    apiName ++ '_' :: operationId.getD []
  else
    let pathParts :=
      ((splitOnChar '/' pathTemplate).filter
          (fun part => !part.isEmpty && !(part.head? = some '{'))).map
        (List.filter isAlphaNumAscii)
    let joined := intercalateStr ['_'] pathParts
    let pathName := if joined.isEmpty then "root".data else joined
    apiName ++ '_' :: method ++ '_' :: pathName

example : generateToolName "ns".data none "/a/{id}/b".data "get".data =
    "ns_get_a_b".data := by decide
example : generateToolName "ns".data (some "getPetById".data) "/pet/{petId}".data "get".data =
    "ns_getPetById".data := by decide

/-- Modelled from the claim wording, for comparison with the code: path
name obtained by splitting on `/`, dropping empty segments and segments
starting with a brace, stripping non-alphanumerics from each remaining
segment and joining with underscores, with the literal `root` used exactly
when no segments remain after the dropping step. -/
def claimedPathName (pathTemplate : Str) : Str :=
  let parts :=
    (splitOnChar '/' pathTemplate).filter
      (fun part => !part.isEmpty && !(part.head? = some '{'))
  if parts.isEmpty then "root".data
  else intercalateStr ['_'] (parts.map (List.filter isAlphaNumAscii))

/-- A raw parameter entry as the extractor sees it: possibly a `$ref`
stub, with optional `name`, `in`, `schema`, `required` and `description`
fields. -/
structure RawParam where
  isRef : Bool
  name : Option Str
  inLoc : Option Str
  schema : Option JsValue
  required : Option JsValue
  description : Option JsValue

/-- A compiled parameter spec as stored on a tool definition. -/
structure ToolParameter where
  name : Str
  loc : Str
  required : Bool
  schema : JsValue
  description : Option JsValue

/-! ## Credential resolver (`utils/auth.ts`) -/

/-- Characters matched by the regex metacharacter `.` (everything except
the four line terminators). -/
def regexDotChar (c : Char) : Bool :=
  c ≠ '\n' && c ≠ '\r' && c ≠ Char.ofNat 8232 && c ≠ Char.ofNat 8233

/-- Match a key against the anchored pattern `(.+)<sfx>`: the key must end
in `sfx` with a non-empty remainder of line-terminator-free characters,
which is captured. -/
def matchCapturedSuffix (sfx key : Str) : Option Str :=
  let n := key.length - sfx.length
  if sfx.length < key.length ∧ key.drop n = sfx ∧ (key.take n).all regexDotChar then
    some (key.take n)
  else none

/-- Does `pat` start the string? -/
def startsWithStr : Str → Str → Bool
  | _, [] => true
  | [], _ :: _ => false
  | c :: cs, p :: ps => c == p && startsWithStr cs ps

/-- JS `String.prototype.includes`. -/
def hasSubstr (pat : Str) : Str → Bool
  | [] => pat.isEmpty
  | c :: cs => startsWithStr (c :: cs) pat || hasSubstr pat cs

/-- ASCII lowercasing of a string. -/
def toLowerStr (s : Str) : Str := s.map Char.toLower

/-- Classification of one environment key (auth.ts, the five regex
matches and the if-chain over them): yields the lowercased namespace, the
auth type and the config field the value goes into. -/
def classifyKey (key : Str) : Option (Str × Str × Str) :=
  match matchCapturedSuffix "_BEARER_TOKEN".data key with
  | some n => some (toLowerStr n, "bearer".data, "token".data)
  | none =>
  match matchCapturedSuffix "_API_KEY".data key with
  | some n => some (toLowerStr n, "apiKey".data, "token".data)
  | none =>
  match matchCapturedSuffix "_TOKEN".data key with
  | some n =>
    if hasSubstr "BEARER".data key then none
    else some (toLowerStr n, "bearer".data, "token".data)
  | none =>
  match matchCapturedSuffix "_USERNAME".data key with
  | some n => some (toLowerStr n, "basic".data, "username".data)
  | none =>
  match matchCapturedSuffix "_PASSWORD".data key with
  | some n => some (toLowerStr n, "basic".data, "password".data)
  | none => none

example : classifyKey "PETSTORE_API_KEY".data =
    some ("petstore".data, "apiKey".data, "token".data) := by decide
example : classifyKey "GITHUB_BEARER_TOKEN".data =
    some ("github".data, "bearer".data, "token".data) := by decide
example : classifyKey "GITHUB_TOKEN".data =
    some ("github".data, "bearer".data, "token".data) := by decide

/-- One credential descriptor (`AuthConfig[apiName]` in types.ts). -/
structure AuthEntry where
  type : Str
  token : Option Str := none
  username : Option Str := none
  password : Option Str := none
  headerName : Option Str := none

/-- The namespace-to-descriptor map, as an insertion-ordered association
list (models a JS object keyed by namespace). -/
abbrev AuthConfig := List (Str × AuthEntry)

/-- First-match lookup in an association list (JS property read). -/
def lookupAssoc : List (Str × α) → Str → Option α
  | [], _ => none
  | (k', v) :: rest, k => if k' = k then some v else lookupAssoc rest k

/-- In-place update (or append) in an association list (JS property write). -/
def setAssoc : List (Str × α) → Str → α → List (Str × α)
  | [], k, v => [(k, v)]
  | (k', v') :: rest, k, v =>
    if k' = k then (k, v) :: rest else (k', v') :: setAssoc rest k v

/-- Store a value into the descriptor field named by `configKey`. -/
def setAuthField (e : AuthEntry) (configKey : Str) (value : Str) : AuthEntry :=
  if configKey = "token".data then { e with token := some value }
  else if configKey = "username".data then { e with username := some value }
  else if configKey = "password".data then { e with password := some value }
  else e

/-- The override step: a bearer-producing entry upgrades a non-bearer
descriptor type to bearer. -/
def upgradeBearer (authType : Str) (e : AuthEntry) : AuthEntry :=
  if authType = "bearer".data ∧ e.type ≠ "bearer".data then
    { e with type := authType } else e

/-- The defaulting step: an apiKey entry fills in the fixed header name
when none is set yet. -/
def defaultApiKeyHeader (authType : Str) (e : AuthEntry) : AuthEntry :=
  if authType = "apiKey".data ∧ e.headerName = none then
    { e with headerName := some "X-API-Key".data } else e

/-- The descriptor a classified entry starts from: the namespace's
existing descriptor, or a fresh one carrying the entry's type. -/
def existingEntry (cfg : AuthConfig) (apiName authType : Str) : AuthEntry :=
  match lookupAssoc cfg apiName with
  | none => { type := authType : AuthEntry }
  | some e => e

/-- The descriptor stored for a namespace after one classified
environment entry: the existing descriptor (or a fresh one carrying the
entry's type), its type upgraded to bearer when this entry is
bearer-producing, the value stored into the entry's field, and the apiKey
header name defaulted. -/
def processedEntry (cfg : AuthConfig) (apiName authType configKey value : Str) : AuthEntry :=
  defaultApiKeyHeader authType
    (setAuthField (upgradeBearer authType (existingEntry cfg apiName authType))
      configKey value)

/-- Processing of one environment entry by `loadAuthConfig`: skip falsy
values and unclassifiable keys; otherwise store the processed descriptor
under the entry's namespace. -/
def processEnvEntry (cfg : AuthConfig) (key value : Str) : AuthConfig :=
  if value.isEmpty then cfg
  else match classifyKey key with
  | none => cfg
  | some (apiName, authType, configKey) =>
    setAssoc cfg apiName (processedEntry cfg apiName authType configKey value)

/-- `loadAuthConfig` (auth.ts): fold the environment snapshot, in entry
order, into a namespace-to-descriptor map. -/
def loadAuthConfig (env : List (Str × Str)) : AuthConfig :=
  env.foldl (fun cfg kv => processEnvEntry cfg kv.1 kv.2) []

/-- `applyAuthentication` (auth.ts): copy the headers and set the
authentication header according to the descriptor's type, skipping
silently when the descriptor is absent or its required fields are falsy. -/
def applyAuthentication (headers : List (Str × Str)) (authConfig : Option AuthEntry) :
    List (Str × Str) :=
  match authConfig with
  | none => headers
  | some a =>
    if a.type = "bearer".data then
      match a.token with
      | some t => if t.isEmpty then headers
          else setAssoc headers "Authorization".data ("Bearer ".data ++ t)
      | none => headers
    else if a.type = "apiKey".data then
      match a.token, a.headerName with
      | some t, some h => if t.isEmpty || h.isEmpty then headers else setAssoc headers h t
      | _, _ => headers
    else if a.type = "basic".data then
      match a.username, a.password with
      | some u, some p => if u.isEmpty || p.isEmpty then headers
          else setAssoc headers "Authorization".data
            ("Basic ".data ++ base64OfStr (u ++ ':' :: p))
      | _, _ => headers
    else headers

/-- `extractParameters` (openapi-parser.ts): reference entries are
skipped, entries whose `in`, `name` or `schema` field is absent or falsy
are skipped, and for the rest the required flag is the declared required
value's truthiness or-ed with the location being `path`. -/
def extractParameters (paramRefs : List RawParam) : List ToolParameter :=
  paramRefs.filterMap fun p =>
    if p.isRef then none
    else if strTruthy p.inLoc && strTruthy p.name && valTruthy p.schema then
      some { name := p.name.getD []
             loc := p.inLoc.getD []
             required := valTruthy p.required || (p.inLoc.getD [] = "path".data)
             schema := p.schema.getD .vNull
             description := p.description }
    else none

/-! ## Request builder and executor (`utils/http-client.ts`) -/

/-- A compiled tool definition, restricted to the fields the request
builder reads. -/
structure GeneratedTool where
  name : Str
  description : Str
  method : Str
  path : Str
  parameters : List ToolParameter
  requestBody : Option JsValue
  baseUrl : Str

/-- JS `String.prototype.replace` with a plain-string pattern: replace
only the first occurrence (the empty pattern matches at the start). -/
def replaceFirst (s pat rep : Str) : Str :=
  match s with
  | [] => if pat.isEmpty then rep else []
  | c :: cs =>
    if startsWithStr (c :: cs) pat then rep ++ (c :: cs).drop pat.length
    else c :: replaceFirst cs pat rep

example : replaceFirst "/pet/{id}/{id}".data ('{' :: "id".data ++ ['}']) "42".data =
    "/pet/42/{id}".data := by decide

/-- `url.replace(/\/$/, '')`: drop one trailing slash if present. -/
def stripTrailingSlash (s : Str) : Str :=
  if s.getLast? = some '/' then s.dropLast else s

/-- The `{name}` placeholder searched for in the URL template. -/
def placeholder (name : Str) : Str := '{' :: name ++ ['}']

/-- `HttpClient.buildUrl`: base URL with one trailing slash stripped plus
the path template, then for each parameter, in list order, with location
`path` and a defined argument, the first occurrence of its placeholder is
replaced by the percent-encoded string form of the argument. -/
def buildUrl (tool : GeneratedTool) (args : List (Str × JsValue)) : Str :=
  tool.parameters.foldl
    (fun url p =>
      if p.loc = "path".data then
        match lookupAssoc args p.name with
        | some v => replaceFirst url (placeholder p.name) (encodeURIComponent (jsToString v))
        | none => url
      else url)
    (stripTrailingSlash tool.baseUrl ++ tool.path)

/-- `HttpClient.buildRequestBody`: no body without a declared request
body; otherwise the `body` argument as-is, else the `requestBody`
argument, else the object of all arguments not naming a declared
parameter, or no body when that object is empty. -/
def buildRequestBody (tool : GeneratedTool) (args : List (Str × JsValue)) : Option JsValue :=
  if !valTruthy tool.requestBody then none
  else match lookupAssoc args "body".data with
  | some v => some v
  | none =>
  match lookupAssoc args "requestBody".data with
  | some v => some v
  | none =>
    let paramNames := tool.parameters.map (fun p => p.name)
    let bodyArgs := args.filter (fun kv => !paramNames.contains kv.1)
    if bodyArgs.isEmpty then none else some (.vObj bodyArgs)

/-- A success response as the formatter reads it. `data = none` models an
undefined payload and `data = some vNull` a null payload. -/
structure AxiosResponse where
  status : Nat
  statusText : Str
  headers : List (Str × Str)
  data : Option JsValue

/-- `HttpClient.formatResponse`: status line, header dump in received
order, then the body section (raw string payload, `(empty response)` for
null or absent payloads, pretty JSON otherwise). -/
def formatResponse (r : AxiosResponse) : Str :=
  let headerLines :=
    intercalateStr ['\n'] (r.headers.map (fun kv => kv.1 ++ ':' :: ' ' :: kv.2))
  let body : Str :=
    match r.data with
    | some (.vStr s) => s
    | none => "(empty response)".data
    | some .vNull => "(empty response)".data
    | some d => jsonStringify2 d
  "Status: ".data ++ natToStr r.status ++ ' ' :: r.statusText ++
    "\n\nHeaders:\n".data ++ headerLines ++ "\n\nBody:\n".data ++ body

/-- The server response attached to an axios error, as far as the error
branch reads it: a status code and an optional payload. -/
structure ErrorResponse where
  status : Nat
  data : Option JsValue

/-- The outcome of the awaited axios call inside `executeRequest`:
a response, an axios-recognized failure (with or without a server
response), or any other thrown error. -/
inductive HttpOutcome where
  | success : AxiosResponse → HttpOutcome
  | axiosFailure : Option ErrorResponse → Str → HttpOutcome
  | otherFailure : Str → HttpOutcome

/-- `HttpClient.executeRequest`'s resolution as a function of the call
outcome: format the response on success; on an axios failure render
`HTTP Error {status}: {stringified message}` where a missing response (or
falsy status) yields the literal `Unknown` and the message falls back
from the response payload to the error message; on any other failure
render `Request failed: {message}`. -/
def executeRequest (outcome : HttpOutcome) : Str :=
  match outcome with
  | .success r => formatResponse r
  | .axiosFailure resp msg =>
    let statusStr : Str :=
      match resp with
      | some er => if er.status = 0 then "Unknown".data else natToStr er.status
      | none => "Unknown".data
    let message : JsValue :=
      match resp with
      | some er =>
        match er.data with
        | some d => if jsTruthy d then d else .vStr msg
        | none => .vStr msg
      | none => .vStr msg
    "HTTP Error ".data ++ statusStr ++ ':' :: ' ' :: jsonStringify2 message
  | .otherFailure msg => "Request failed: ".data ++ msg

example :
    executeRequest (.axiosFailure (some ⟨404, some (.vObj [("message".data, .vStr "not found".data)])⟩)
      "Request failed with status code 404".data) =
    ("HTTP Error 404: ".data ++ '{' :: "\n  \"message\": \"not found\"\n".data ++ ['}']) := by
  decide

/-! ## Claim C7: response normalization -/

/-- The status line, header dump and body heading shared by every
formatted response. -/
def responsePreamble (r : AxiosResponse) : Str :=
  "Status: ".data ++ natToStr r.status ++ ' ' :: r.statusText ++
    "\n\nHeaders:\n".data ++
    intercalateStr ['\n'] (r.headers.map (fun kv => kv.1 ++ ':' :: ' ' :: kv.2)) ++
    "\n\nBody:\n".data

/-- Claim C7: the formatted response is the status line, the headers one
per line, and a body section that is the literal `(empty response)` for a
null or absent payload, the raw text for a string payload, and two-space
pretty-printed JSON for any other payload. -/
theorem C7_response_format :
    (∀ r : AxiosResponse, r.data = none ∨ r.data = some .vNull →
        formatResponse r = responsePreamble r ++ "(empty response)".data) ∧
    (∀ (r : AxiosResponse) (s : Str), r.data = some (.vStr s) →
        formatResponse r = responsePreamble r ++ s) ∧
    (∀ (r : AxiosResponse) (d : JsValue), r.data = some d →
        (∀ s, d ≠ .vStr s) → d ≠ .vNull →
        formatResponse r = responsePreamble r ++ jsonStringify2 d) := by
  refine ⟨?_, ?_, ?_⟩
  · rintro r (h | h) <;> simp [formatResponse, responsePreamble, h]
  · intro r s h
    simp [formatResponse, responsePreamble, h]
  · intro r d h hs hnull
    cases d with
    | vStr s => exact absurd rfl (hs s)
    | vNull => exact absurd rfl hnull
    | _ => simp [formatResponse, responsePreamble, h]

/-- Witness for `C7_response_format`: a null payload renders the literal
empty-response line. -/
theorem C7_response_format_witness :
    formatResponse ⟨204, "No Content".data, [("server".data, "nginx".data)], some .vNull⟩ =
      responsePreamble ⟨204, "No Content".data, [("server".data, "nginx".data)], some .vNull⟩ ++
        "(empty response)".data :=
  C7_response_format.1
    ⟨204, "No Content".data, [("server".data, "nginx".data)], some .vNull⟩ (Or.inr rfl)

/-! ## Claim C2: executor failure rendering -/

/-- Modelled from the claim wording: a failure with a server response
renders `HTTP Error {status}: {message}` and a failure with no response
renders `Request failed: {message}`. -/
def claimedFailureText : Option ErrorResponse → Str → Str
  | some er, msg =>
    "HTTP Error ".data ++ natToStr er.status ++ ':' :: ' ' ::
      jsonStringify2 (match er.data with
        | some d => if jsTruthy d then d else .vStr msg
        | none => .vStr msg)
  | none, msg => "Request failed: ".data ++ msg

/-- Claim C2, counterexample: an axios-recognized failure with no server
response (the network/timeout case) renders `HTTP Error Unknown: ...`,
not `Request failed: ...` as claimed. -/
theorem C2_counterexample :
    executeRequest (.axiosFailure none "timeout of 30000ms exceeded".data) =
      "HTTP Error Unknown: \"timeout of 30000ms exceeded\"".data ∧
    executeRequest (.axiosFailure none "timeout of 30000ms exceeded".data) ≠
      claimedFailureText none "timeout of 30000ms exceeded".data := by
  refine ⟨by decide, by decide⟩

/-- Claim C2, amended: the executor always resolves to a string (it is a
total function of the call outcome): a success formats the response; an
axios-recognized failure renders `HTTP Error {status}: {json message}`
where the status is the literal `Unknown` when no response is present and
the message falls back from the response payload to the error message;
only a failure not recognized by the HTTP client renders
`Request failed: {message}`. -/
theorem C2_execute_result :
    (∀ r, executeRequest (.success r) = formatResponse r) ∧
    (∀ er msg, er.status ≠ 0 →
        executeRequest (.axiosFailure (some er) msg) =
          "HTTP Error ".data ++ natToStr er.status ++ ':' :: ' ' ::
            jsonStringify2 (match er.data with
              | some d => if jsTruthy d then d else .vStr msg
              | none => .vStr msg)) ∧
    (∀ msg, executeRequest (.axiosFailure none msg) =
        "HTTP Error Unknown: ".data ++ jsonStringify2 (.vStr msg)) ∧
    (∀ msg, executeRequest (.otherFailure msg) = "Request failed: ".data ++ msg) := by
  refine ⟨fun r => rfl, ?_, fun msg => rfl, fun msg => rfl⟩
  intro er msg h
  simp [executeRequest, h]

/-- Witness for `C2_execute_result`: a 404 with a JSON body renders the
pretty-printed message after the status. -/
theorem C2_execute_result_witness :
    executeRequest (.axiosFailure
        (some ⟨404, some (.vObj [("message".data, .vStr "not found".data)])⟩)
        "Request failed with status code 404".data) =
      "HTTP Error ".data ++ natToStr 404 ++ ':' :: ' ' ::
        jsonStringify2 (.vObj [("message".data, .vStr "not found".data)]) :=
  C2_execute_result.2.1 ⟨404, some (.vObj [("message".data, .vStr "not found".data)])⟩
    "Request failed with status code 404".data (by decide)

/-! ## Claim C4: request body precedence -/

/-- Claim C4: without a declared request body no body is ever sent; with
one, the `body` argument wins, then the `requestBody` argument, then the
collection of all arguments naming no declared parameter, with an empty
collection meaning no body. -/
theorem C4_request_body :
    (∀ tool args, valTruthy tool.requestBody = false → buildRequestBody tool args = none) ∧
    (∀ tool args v, valTruthy tool.requestBody = true →
        lookupAssoc args "body".data = some v → buildRequestBody tool args = some v) ∧
    (∀ tool args v, valTruthy tool.requestBody = true →
        lookupAssoc args "body".data = none →
        lookupAssoc args "requestBody".data = some v →
        buildRequestBody tool args = some v) ∧
    (∀ tool args, valTruthy tool.requestBody = true →
        lookupAssoc args "body".data = none →
        lookupAssoc args "requestBody".data = none →
        ∀ collected, collected = args.filter
            (fun kv => !(tool.parameters.map (fun p => p.name)).contains kv.1) →
          (∀ k v, (k, v) ∈ collected ↔
              (k, v) ∈ args ∧ k ∉ tool.parameters.map (fun p => p.name)) ∧
          (collected = [] → buildRequestBody tool args = none) ∧
          (collected ≠ [] → buildRequestBody tool args = some (.vObj collected))) := by
  refine ⟨?_, ?_, ?_, ?_⟩
  · intro tool args h
    simp [buildRequestBody, h]
  · intro tool args v h hb
    simp [buildRequestBody, h, hb]
  · intro tool args v h hb hrb
    simp [buildRequestBody, h, hb, hrb]
  · intro tool args h hb hrb collected hc
    subst hc
    refine ⟨?_, ?_, ?_⟩
    · intro k v
      simp [List.mem_filter]
    · intro he
      simp [buildRequestBody, h, hb, hrb]
      intro k v hkv
      by_cases hcont : (tool.parameters.map (fun p => p.name)).contains k
      · obtain ⟨p, hp, hpn⟩ := List.mem_map.mp (List.elem_iff.mp hcont)
        exact ⟨p, hp, hpn⟩
      · have hmf : (k, v) ∈ args.filter
            (fun kv => !(tool.parameters.map (fun p => p.name)).contains kv.1) :=
          List.mem_filter.mpr ⟨hkv, by
            simp only [Bool.not_eq_true']
            exact Bool.eq_false_iff.mpr fun hC => hcont hC⟩
        rw [he] at hmf
        exact absurd hmf (List.not_mem_nil _)
    · intro hne
      simp [buildRequestBody, h, hb, hrb]
      obtain ⟨⟨k, v⟩, hmem⟩ := List.exists_mem_of_ne_nil _ hne
      have hmf := List.mem_filter.mp hmem
      obtain ⟨hin, hpred⟩ := hmf
      refine ⟨k, ⟨v, hin⟩, fun p hp hpn => ?_⟩
      simp at hpred
      exact hpred p hp hpn

/-- Witness for `C4_request_body`: with a declared body and an explicit
`body` argument, that argument is used as-is. -/
theorem C4_request_body_witness :
    buildRequestBody
        { name := "t".data, description := [], method := "POST".data,
          path := "/pets".data, parameters := [], requestBody := some (.vObj []),
          baseUrl := "http://h".data }
        [("body".data, .vObj [("a".data, .vNum 1)])] =
      some (.vObj [("a".data, .vNum 1)]) :=
  C4_request_body.2.1
    { name := "t".data, description := [], method := "POST".data,
      path := "/pets".data, parameters := [], requestBody := some (.vObj []),
      baseUrl := "http://h".data }
    [("body".data, .vObj [("a".data, .vNum 1)])] (.vObj [("a".data, .vNum 1)]) rfl rfl

/-! ## Claim C1: tool naming -/

/-- Modelled from the amended claim: path name via split on `/`, dropping
empty segments and brace-initial segments, stripping non-alphanumerics,
joining with `_`, with the `root` fallback applying whenever the joined
name is empty. -/
def amendedPathName (pathTemplate : Str) : Str :=
  let joined := intercalateStr ['_']
    (((splitOnChar '/' pathTemplate).filter
        (fun part => !part.isEmpty && !(part.head? = some '{'))).map
      (List.filter isAlphaNumAscii))
  if joined.isEmpty then "root".data else joined

/-- Claim C1, counterexample. For the slash-hyphen path a segment survives the
dropping step but strips to nothing, so the claimed name (`root` only
when no segments remain) is `ns_get_` while the code generates
`ns_get_root`. -/
theorem C1_counterexample :
    generateToolName "ns".data none "/-".data "get".data = "ns_get_root".data ∧
    "ns".data ++ '_' :: "get".data ++ '_' :: claimedPathName "/-".data = "ns_get_".data ∧
    generateToolName "ns".data none "/-".data "get".data ≠
      "ns".data ++ '_' :: "get".data ++ '_' :: claimedPathName "/-".data := by
  refine ⟨by decide, by decide, by decide⟩

/-- Claim C1, amended: with a (truthy) operationId the name is
`{namespace}_{operationId}`; otherwise it is
`{namespace}_{method}_{pathName}` with the `root` fallback applying
whenever the joined path name is empty (in particular when no segments
remain); for example, GET `/a/{id}/b` in namespace `ns` yields
`ns_get_a_b`. -/
theorem C1_tool_name :
    (∀ apiName opId pathTemplate method, opId ≠ [] →
        generateToolName apiName (some opId) pathTemplate method =
          apiName ++ '_' :: opId) ∧
    (∀ apiName pathTemplate method,
        generateToolName apiName none pathTemplate method =
          apiName ++ '_' :: method ++ '_' :: amendedPathName pathTemplate) ∧
    generateToolName "ns".data none "/a/{id}/b".data "get".data = "ns_get_a_b".data := by
  refine ⟨?_, ?_, by decide⟩
  · intro apiName opId pathTemplate method h
    cases opId with
    | nil => exact absurd rfl h
    | cons c cs => simp [generateToolName, strTruthy]
  · intro apiName pathTemplate method
    simp [generateToolName, strTruthy, amendedPathName]

/-- Witness for `C1_tool_name` at concrete inputs. -/
theorem C1_tool_name_witness :
    generateToolName "petstore".data (some "getPetById".data) "/pet/{petId}".data "get".data =
      "petstore_getPetById".data :=
  C1_tool_name.1 "petstore".data "getPetById".data "/pet/{petId}".data "get".data (by decide)

/-! ## Claim C5: the required flag of extracted parameters -/

/-- Modelled from the claim: a required flag defaulting to true exactly
for path parameters, with an explicit declaration taking precedence. -/
def claimedRequired (declared : Option Bool) (loc : Str) : Bool :=
  match declared with
  | some b => b
  | none => loc = "path".data

/-- Claim C5, counterexample: a path parameter explicitly declared
`required: false` is extracted with `required = true` (the code computes
`param.required || param.in === 'path'`), while the claim says the
explicit declaration wins. -/
theorem C5_counterexample :
    (extractParameters
        [{ isRef := false, name := some "id".data, inLoc := some "path".data,
           schema := some (.vObj []), required := some (.vBool false),
           description := none }]).map ToolParameter.required = [true] ∧
    claimedRequired (some false) "path".data = false := by
  refine ⟨by decide, by decide⟩

/-- Claim C5, amended: every extracted path parameter has
`required = true` (an explicit `required: false` is overridden), and for
every other location the flag is the truthiness of the declared value,
defaulting to false. -/
theorem C5_required_flag :
    (∀ ps q, q ∈ extractParameters ps → q.loc = "path".data → q.required = true) ∧
    (∀ p : RawParam, p.isRef = false → strTruthy p.inLoc = true →
        strTruthy p.name = true → valTruthy p.schema = true →
        p.inLoc.getD [] ≠ "path".data →
        (extractParameters [p]).map ToolParameter.required = [valTruthy p.required]) := by
  constructor
  · intro ps q hq hloc
    simp only [extractParameters, List.mem_filterMap] at hq
    obtain ⟨p, _, hp⟩ := hq
    by_cases href : p.isRef <;> simp [href] at hp
    obtain ⟨-, hq⟩ := hp
    subst hq
    simp only at hloc
    simp [hloc]
  · intro p href hin hname hschema hloc
    simp [extractParameters, href, hin, hname, hschema, hloc]

/-- Witness for `C5_required_flag` at concrete inputs. -/
theorem C5_required_flag_witness :
    (extractParameters
        [{ isRef := false, name := some "limit".data, inLoc := some "query".data,
           schema := some (.vObj []), required := some (.vBool true),
           description := none }]).map ToolParameter.required =
      [valTruthy (some (.vBool true))] :=
  C5_required_flag.2
    { isRef := false, name := some "limit".data, inLoc := some "query".data,
      schema := some (.vObj []), required := some (.vBool true), description := none }
    rfl rfl rfl rfl (by decide)

/-! ## Claim C9: silently dropped parameter entries -/

/-- Claim C9: the extractor drops reference entries and every entry whose
`name`, `in` or `schema` field is absent or falsy — the surrounding
extraction is unchanged, so in particular a parameter without a schema
fragment is omitted rather than kept with a permissive rule. -/
theorem C9_dropped_params :
    ∀ (l₁ l₂ : List RawParam) (p : RawParam),
      (p.isRef = true ∨ strTruthy p.name = false ∨ strTruthy p.inLoc = false ∨
        valTruthy p.schema = false) →
      extractParameters (l₁ ++ p :: l₂) = extractParameters (l₁ ++ l₂) := by
  intro l₁ l₂ p h
  simp only [extractParameters, List.filterMap_append, List.filterMap_cons]
  rcases h with h | h | h | h <;> simp [h]

/-- Witness for `C9_dropped_params`: an entry with no schema fragment
contributes nothing. -/
theorem C9_dropped_params_witness :
    extractParameters
        [{ isRef := false, name := some "filter".data, inLoc := some "query".data,
           schema := none, required := none, description := none },
         { isRef := false, name := some "id".data, inLoc := some "path".data,
           schema := some (.vObj []), required := none, description := none }] =
      extractParameters
        [{ isRef := false, name := some "id".data, inLoc := some "path".data,
           schema := some (.vObj []), required := none, description := none }] :=
  C9_dropped_params []
    [{ isRef := false, name := some "id".data, inLoc := some "path".data,
       schema := some (.vObj []), required := none, description := none }]
    { isRef := false, name := some "filter".data, inLoc := some "query".data,
      schema := none, required := none, description := none }
    (by decide)

/-! ## Association-list lemmas -/

lemma lookupAssoc_setAssoc_self (m : List (Str × α)) (k : Str) (v : α) :
    lookupAssoc (setAssoc m k v) k = some v := by
  induction m with
  | nil => simp [setAssoc, lookupAssoc]
  | cons hd tl ih =>
    obtain ⟨k0, v0⟩ := hd
    by_cases h0 : k0 = k
    · subst h0; simp [setAssoc, lookupAssoc]
    · simp [setAssoc, lookupAssoc, h0, ih]

lemma lookupAssoc_setAssoc_ne (m : List (Str × α)) (k k' : Str) (v : α) (h : k ≠ k') :
    lookupAssoc (setAssoc m k v) k' = lookupAssoc m k' := by
  induction m with
  | nil => simp [setAssoc, lookupAssoc, h]
  | cons hd tl ih =>
    obtain ⟨k0, v0⟩ := hd
    by_cases h0 : k0 = k
    · subst h0; simp [setAssoc, lookupAssoc, h]
    · by_cases h1 : k0 = k'
      · subst h1; simp [setAssoc, lookupAssoc, h0]
      · simp [setAssoc, lookupAssoc, h0, h1, ih]

lemma mem_setAssoc (m : List (Str × α)) (k : Str) (v : α) :
    ∀ x ∈ setAssoc m k v, x = (k, v) ∨ x ∈ m := by
  induction m with
  | nil => intro x hx; simp [setAssoc] at hx; exact Or.inl hx
  | cons hd tl ih =>
    obtain ⟨k0, v0⟩ := hd
    intro x hx
    by_cases h0 : k0 = k
    · subst h0
      simp only [setAssoc, if_pos rfl] at hx
      rcases List.mem_cons.mp hx with h | h
      · exact Or.inl h
      · exact Or.inr (List.mem_cons_of_mem _ h)
    · simp only [setAssoc, if_neg h0] at hx
      rcases List.mem_cons.mp hx with h | h
      · exact Or.inr (h ▸ List.mem_cons_self _ _)
      · rcases ih x h with h' | h'
        · exact Or.inl h'
        · exact Or.inr (List.mem_cons_of_mem _ h')

lemma lookupAssoc_mem (m : List (Str × α)) (k : Str) (v : α)
    (h : lookupAssoc m k = some v) : (k, v) ∈ m := by
  induction m with
  | nil => simp [lookupAssoc] at h
  | cons hd tl ih =>
    obtain ⟨k0, v0⟩ := hd
    by_cases h0 : k0 = k
    · subst h0
      simp [lookupAssoc] at h
      exact h ▸ List.mem_cons_self _ _
    · simp [lookupAssoc, h0] at h
      exact List.mem_cons_of_mem _ (ih h)

/-! ## Credential-resolver lemmas -/

lemma setAuthField_type (e : AuthEntry) (ck v : Str) :
    (setAuthField e ck v).type = e.type := by
  unfold setAuthField; split_ifs <;> rfl

lemma setAuthField_headerName (e : AuthEntry) (ck v : Str) :
    (setAuthField e ck v).headerName = e.headerName := by
  unfold setAuthField; split_ifs <;> rfl

lemma upgradeBearer_of_bearer_type (t : Str) (e : AuthEntry)
    (ht : e.type = "bearer".data) : upgradeBearer t e = e := by
  unfold upgradeBearer
  rw [if_neg (fun h => h.2 ht)]

lemma upgradeBearer_type_of_bearer (e : AuthEntry) :
    (upgradeBearer "bearer".data e).type = "bearer".data := by
  unfold upgradeBearer
  split_ifs with h
  · rfl
  · by_cases hty : e.type = "bearer".data
    · exact hty
    · exact absurd ⟨rfl, hty⟩ h

lemma upgradeBearer_headerName (t : Str) (e : AuthEntry) :
    (upgradeBearer t e).headerName = e.headerName := by
  unfold upgradeBearer; split_ifs <;> rfl

lemma defaultApiKeyHeader_type (t : Str) (e : AuthEntry) :
    (defaultApiKeyHeader t e).type = e.type := by
  unfold defaultApiKeyHeader; split_ifs <;> rfl

lemma existingEntry_some (cfg : AuthConfig) (n t : Str) (e : AuthEntry)
    (hl : lookupAssoc cfg n = some e) : existingEntry cfg n t = e := by
  simp [existingEntry, hl]

lemma existingEntry_none (cfg : AuthConfig) (n t : Str)
    (hl : lookupAssoc cfg n = none) :
    existingEntry cfg n t = { type := t : AuthEntry } := by
  simp [existingEntry, hl]

lemma processedEntry_type_bearer_of_lookup (cfg : AuthConfig) (n t ck v : Str)
    (e : AuthEntry) (hl : lookupAssoc cfg n = some e) (ht : e.type = "bearer".data) :
    (processedEntry cfg n t ck v).type = "bearer".data := by
  rw [processedEntry, defaultApiKeyHeader_type, setAuthField_type,
    existingEntry_some cfg n t e hl, upgradeBearer_of_bearer_type t e ht, ht]

lemma processedEntry_type_of_bearer (cfg : AuthConfig) (n ck v : Str) :
    (processedEntry cfg n "bearer".data ck v).type = "bearer".data := by
  rw [processedEntry, defaultApiKeyHeader_type, setAuthField_type]
  exact upgradeBearer_type_of_bearer _

lemma processEnvEntry_bearer_preserved (cfg : AuthConfig) (key value ns : Str)
    (e : AuthEntry) (hl : lookupAssoc cfg ns = some e) (ht : e.type = "bearer".data) :
    ∃ e', lookupAssoc (processEnvEntry cfg key value) ns = some e' ∧
      e'.type = "bearer".data := by
  unfold processEnvEntry
  by_cases hv : value.isEmpty
  · rw [if_pos hv]; exact ⟨e, hl, ht⟩
  · rw [if_neg hv]
    cases hck : classifyKey key with
    | none => exact ⟨e, hl, ht⟩
    | some triple =>
      obtain ⟨n, t, ck⟩ := triple
      by_cases hn : n = ns
      · subst hn
        exact ⟨processedEntry cfg n t ck value, lookupAssoc_setAssoc_self _ _ _,
          processedEntry_type_bearer_of_lookup cfg n t ck value e hl ht⟩
      · rw [lookupAssoc_setAssoc_ne _ _ _ _ hn]
        exact ⟨e, hl, ht⟩

lemma processEnvEntry_bearer_sets (cfg : AuthConfig) (key value ns : Str)
    (hv : value ≠ [])
    (hck : classifyKey key = some (ns, "bearer".data, "token".data)) :
    ∃ e', lookupAssoc (processEnvEntry cfg key value) ns = some e' ∧
      e'.type = "bearer".data := by
  have hvE : value.isEmpty = false := by
    cases value with
    | nil => exact absurd rfl hv
    | cons a l => rfl
  unfold processEnvEntry
  rw [hvE, hck]
  exact ⟨processedEntry cfg ns "bearer".data "token".data value,
    lookupAssoc_setAssoc_self _ _ _,
    processedEntry_type_of_bearer cfg ns "token".data value⟩

lemma foldl_bearer_preserved (env : List (Str × Str)) :
    ∀ (cfg : AuthConfig) (ns : Str),
      (∃ e, lookupAssoc cfg ns = some e ∧ e.type = "bearer".data) →
      ∃ e, lookupAssoc (env.foldl (fun c kv => processEnvEntry c kv.1 kv.2) cfg) ns = some e ∧
        e.type = "bearer".data := by
  induction env with
  | nil => intro cfg ns h; exact h
  | cons kv rest ih =>
    intro cfg ns h
    obtain ⟨e, hl, ht⟩ := h
    exact ih _ ns (processEnvEntry_bearer_preserved cfg kv.1 kv.2 ns e hl ht)

lemma loadAuthConfig_fold_bearer (env : List (Str × Str)) :
    ∀ (cfg : AuthConfig) (ns : Str),
      (∃ kv, kv ∈ env ∧ kv.2 ≠ [] ∧
        classifyKey kv.1 = some (ns, "bearer".data, "token".data)) →
      ∃ e, lookupAssoc (env.foldl (fun c kv => processEnvEntry c kv.1 kv.2) cfg) ns = some e ∧
        e.type = "bearer".data := by
  induction env with
  | nil => rintro cfg ns ⟨kv, hmem, -⟩; exact absurd hmem (List.not_mem_nil kv)
  | cons hd rest ih =>
    rintro cfg ns ⟨kv, hmem, hval, hck⟩
    rcases List.mem_cons.mp hmem with heq | hmem'
    · subst heq
      exact foldl_bearer_preserved rest _ ns
        (processEnvEntry_bearer_sets cfg kv.1 kv.2 ns hval hck)
    · exact ih _ ns ⟨kv, hmem', hval, hck⟩

lemma processedEntry_apiKey_header (cfg : AuthConfig) (n t ck v : Str)
    (hinv : ∀ kv ∈ cfg, kv.2.type = "apiKey".data →
      kv.2.headerName = some "X-API-Key".data) :
    (processedEntry cfg n t ck v).type = "apiKey".data →
    (processedEntry cfg n t ck v).headerName = some "X-API-Key".data := by
  rw [processedEntry, defaultApiKeyHeader]
  intro hty
  split_ifs at hty ⊢ with hcond
  · rfl
  · rw [setAuthField_type] at hty
    rw [setAuthField_headerName]
    have hup : upgradeBearer t (existingEntry cfg n t) = existingEntry cfg n t := by
      unfold upgradeBearer at hty ⊢
      split_ifs at hty ⊢ with hb
      · have h1 : t = "apiKey".data := hty
        have h2 : t = "bearer".data := hb.1
        exact absurd (h2.symm.trans h1) (by decide)
      · rfl
    rw [hup] at hty
    rw [upgradeBearer_headerName]
    cases hl : lookupAssoc cfg n with
    | none =>
      exfalso
      apply hcond
      rw [existingEntry_none cfg n t hl] at hty
      refine ⟨hty, ?_⟩
      rw [setAuthField_headerName, upgradeBearer_headerName, existingEntry_none cfg n t hl]
    | some e =>
      rw [existingEntry_some cfg n t e hl] at hty ⊢
      exact hinv (n, e) (lookupAssoc_mem cfg n e hl) hty

lemma processEnvEntry_header_inv (cfg : AuthConfig) (key value : Str)
    (hinv : ∀ kv ∈ cfg, kv.2.type = "apiKey".data →
      kv.2.headerName = some "X-API-Key".data) :
    ∀ kv ∈ processEnvEntry cfg key value, kv.2.type = "apiKey".data →
      kv.2.headerName = some "X-API-Key".data := by
  intro kv hkv
  unfold processEnvEntry at hkv
  by_cases hv : value.isEmpty
  · rw [if_pos hv] at hkv; exact hinv kv hkv
  · rw [if_neg hv] at hkv
    cases hck : classifyKey key with
    | none => rw [hck] at hkv; exact hinv kv hkv
    | some triple =>
      obtain ⟨n, t, ck⟩ := triple
      rw [hck] at hkv
      rcases mem_setAssoc _ _ _ kv hkv with heq | hmem
      · intro hty
        rw [heq]
        rw [heq] at hty
        exact processedEntry_apiKey_header cfg n t ck value hinv hty
      · exact hinv kv hmem

lemma loadAuthConfig_fold_header_inv (env : List (Str × Str)) :
    ∀ (cfg : AuthConfig),
      (∀ kv ∈ cfg, kv.2.type = "apiKey".data →
        kv.2.headerName = some "X-API-Key".data) →
      ∀ kv ∈ env.foldl (fun c kv => processEnvEntry c kv.1 kv.2) cfg,
        kv.2.type = "apiKey".data → kv.2.headerName = some "X-API-Key".data := by
  induction env with
  | nil => intro cfg hinv kv hkv; exact hinv kv hkv
  | cons hd rest ih =>
    intro cfg hinv kv hkv
    exact ih _ (processEnvEntry_header_inv cfg hd.1 hd.2 hinv) kv hkv

/-! ## Claim C3: authentication application -/

/-- Claim C3: applying a bearer descriptor with a token sets
`Authorization: Bearer {token}`; an apiKey descriptor with a token and a
header name sets that header to the token; a basic descriptor with both
credentials sets `Authorization: Basic base64(user:password)`; an absent
descriptor, an unrecognized kind, or missing/falsy required fields leave
the headers unchanged; and every apiKey descriptor built by the resolver
carries the default header name `X-API-Key`. -/
theorem C3_apply_authentication :
    (∀ (h : List (Str × Str)) (a : AuthEntry) (t : Str),
        a.type = "bearer".data → a.token = some t → t ≠ [] →
        applyAuthentication h (some a) =
          setAssoc h "Authorization".data ("Bearer ".data ++ t)) ∧
    (∀ (h : List (Str × Str)) (a : AuthEntry) (t hn : Str),
        a.type = "apiKey".data → a.token = some t → t ≠ [] →
        a.headerName = some hn → hn ≠ [] →
        applyAuthentication h (some a) = setAssoc h hn t) ∧
    (∀ (h : List (Str × Str)) (a : AuthEntry) (u p : Str),
        a.type = "basic".data → a.username = some u → a.password = some p →
        u ≠ [] → p ≠ [] →
        applyAuthentication h (some a) =
          setAssoc h "Authorization".data
            ("Basic ".data ++ base64OfStr (u ++ ':' :: p))) ∧
    (∀ h : List (Str × Str), applyAuthentication h none = h) ∧
    (∀ (h : List (Str × Str)) (a : AuthEntry),
        a.type ≠ "bearer".data → a.type ≠ "apiKey".data → a.type ≠ "basic".data →
        applyAuthentication h (some a) = h) ∧
    (∀ (h : List (Str × Str)) (a : AuthEntry),
        a.type = "bearer".data → strTruthy a.token = false →
        applyAuthentication h (some a) = h) ∧
    (∀ (h : List (Str × Str)) (a : AuthEntry),
        a.type = "apiKey".data →
        (strTruthy a.token = false ∨ strTruthy a.headerName = false) →
        applyAuthentication h (some a) = h) ∧
    (∀ (h : List (Str × Str)) (a : AuthEntry),
        a.type = "basic".data →
        (strTruthy a.username = false ∨ strTruthy a.password = false) →
        applyAuthentication h (some a) = h) ∧
    (∀ (env : List (Str × Str)) (ns : Str) (e : AuthEntry),
        lookupAssoc (loadAuthConfig env) ns = some e → e.type = "apiKey".data →
        e.headerName = some "X-API-Key".data) := by
  refine ⟨?_, ?_, ?_, fun h => rfl, ?_, ?_, ?_, ?_, ?_⟩
  · intro h a t hty htok hne
    have hE : t.isEmpty = false := by
      cases t with
      | nil => exact absurd rfl hne
      | cons c cs => rfl
    simp [applyAuthentication, hty, htok, hE]
  · intro h a t hn hty htok htne hhn hhne
    have hb : ("apiKey".data : Str) ≠ "bearer".data := by decide
    have hEt : t.isEmpty = false := by
      cases t with
      | nil => exact absurd rfl htne
      | cons c cs => rfl
    have hEh : hn.isEmpty = false := by
      cases hn with
      | nil => exact absurd rfl hhne
      | cons c cs => rfl
    simp [applyAuthentication, hty, htok, hhn, hb, hEt, hEh]
  · intro h a u p hty hu hp hune hpne
    have hb1 : ("basic".data : Str) ≠ "bearer".data := by decide
    have hb2 : ("basic".data : Str) ≠ "apiKey".data := by decide
    have hEu : u.isEmpty = false := by
      cases u with
      | nil => exact absurd rfl hune
      | cons c cs => rfl
    have hEp : p.isEmpty = false := by
      cases p with
      | nil => exact absurd rfl hpne
      | cons c cs => rfl
    simp [applyAuthentication, hty, hu, hp, hb1, hb2, hEu, hEp]
  · intro h a h1 h2 h3
    simp [applyAuthentication, h1, h2, h3]
  · intro h a hty hfal
    cases htok : a.token with
    | none => simp [applyAuthentication, hty, htok]
    | some t =>
      have hE : t.isEmpty = true := by
        rw [htok] at hfal
        simpa [strTruthy] using hfal
      simp [applyAuthentication, hty, htok, hE]
  · intro h a hty hmiss
    have hb : ("apiKey".data : Str) ≠ "bearer".data := by decide
    cases htok : a.token with
    | none => simp [applyAuthentication, hty, htok, hb]
    | some t =>
      cases hhn : a.headerName with
      | none => simp [applyAuthentication, hty, htok, hhn, hb]
      | some hn =>
        rcases hmiss with hm | hm
        · have hE : t.isEmpty = true := by
            rw [htok] at hm
            simpa [strTruthy] using hm
          simp [applyAuthentication, hty, htok, hhn, hb, hE]
        · have hE : hn.isEmpty = true := by
            rw [hhn] at hm
            simpa [strTruthy] using hm
          simp [applyAuthentication, hty, htok, hhn, hb, hE]
  · intro h a hty hmiss
    have hb1 : ("basic".data : Str) ≠ "bearer".data := by decide
    have hb2 : ("basic".data : Str) ≠ "apiKey".data := by decide
    cases hu : a.username with
    | none => simp [applyAuthentication, hty, hu, hb1, hb2]
    | some u =>
      cases hp : a.password with
      | none => simp [applyAuthentication, hty, hu, hp, hb1, hb2]
      | some p =>
        rcases hmiss with hm | hm
        · have hE : u.isEmpty = true := by
            rw [hu] at hm
            simpa [strTruthy] using hm
          simp [applyAuthentication, hty, hu, hp, hb1, hb2, hE]
        · have hE : p.isEmpty = true := by
            rw [hp] at hm
            simpa [strTruthy] using hm
          simp [applyAuthentication, hty, hu, hp, hb1, hb2, hE]
  · intro env ns e hl hty
    exact loadAuthConfig_fold_header_inv env []
      (fun kv hkv => absurd hkv (List.not_mem_nil kv))
      (ns, e) (lookupAssoc_mem _ _ _ hl) hty

/-- Witness for `C3_apply_authentication`: an apiKey descriptor as the
resolver builds it sets the `X-API-Key` header to the stored token. -/
theorem C3_apply_authentication_witness :
    applyAuthentication
        [("Content-Type".data, "application/json".data)]
        (some { type := "apiKey".data, token := some "secret".data,
                headerName := some "X-API-Key".data }) =
      setAssoc [("Content-Type".data, "application/json".data)]
        "X-API-Key".data "secret".data :=
  C3_apply_authentication.2.1
    [("Content-Type".data, "application/json".data)]
    { type := "apiKey".data, token := some "secret".data,
      headerName := some "X-API-Key".data }
    "secret".data "X-API-Key".data rfl rfl (by decide) rfl (by decide)

/-! ## Claim C8: bearer kind monotonicity in credential resolution -/

/-- Claim C8: a descriptor whose kind is bearer keeps that kind across
any further processed entry; a bearer-producing entry (a key classified
as bearer, i.e. `{NAME}_BEARER_TOKEN`, or plain `{NAME}_TOKEN` without
`BEARER`) forces the kind to bearer when processed; hence whenever some
bearer-producing entry of the environment matches a namespace, the final
descriptor of that namespace has kind bearer, in whatever order entries
are processed. -/
theorem C8_bearer_monotone :
    (∀ (cfg : AuthConfig) (key value ns : Str) (e : AuthEntry),
        lookupAssoc cfg ns = some e → e.type = "bearer".data →
        ∃ e', lookupAssoc (processEnvEntry cfg key value) ns = some e' ∧
          e'.type = "bearer".data) ∧
    (∀ (cfg : AuthConfig) (key value ns : Str), value ≠ [] →
        classifyKey key = some (ns, "bearer".data, "token".data) →
        ∃ e', lookupAssoc (processEnvEntry cfg key value) ns = some e' ∧
          e'.type = "bearer".data) ∧
    (∀ (env : List (Str × Str)) (ns : Str),
        (∃ kv, kv ∈ env ∧ kv.2 ≠ [] ∧
          classifyKey kv.1 = some (ns, "bearer".data, "token".data)) →
        ∃ e, lookupAssoc (loadAuthConfig env) ns = some e ∧
          e.type = "bearer".data) ∧
    (∀ n : Str, n ≠ [] → n.all regexDotChar = true →
        classifyKey (n ++ "_BEARER_TOKEN".data) =
          some (toLowerStr n, "bearer".data, "token".data)) ∧
    classifyKey "GITHUB_TOKEN".data =
      some ("github".data, "bearer".data, "token".data) := by
  refine ⟨processEnvEntry_bearer_preserved, processEnvEntry_bearer_sets,
    fun env ns h => loadAuthConfig_fold_bearer env [] ns h, ?_, by decide⟩
  intro n hne hdot
  have hlen : (n ++ "_BEARER_TOKEN".data).length - "_BEARER_TOKEN".data.length
      = n.length := by
    simp [List.length_append]
  have h0 : 0 < n.length := by
    cases n with
    | nil => exact absurd rfl hne
    | cons c cs => simp
  have hlt : "_BEARER_TOKEN".data.length < (n ++ "_BEARER_TOKEN".data).length := by
    simp only [List.length_append]
    omega
  have hmatch : matchCapturedSuffix "_BEARER_TOKEN".data (n ++ "_BEARER_TOKEN".data) =
      some n := by
    simp [matchCapturedSuffix, hlen, List.drop_left, List.take_left, hdot, hlt, hne]
  simp [classifyKey, hmatch]

/-- Witness for `C8_bearer_monotone`: an apiKey entry followed by a
bearer entry for the same namespace yields a bearer descriptor. -/
theorem C8_bearer_monotone_witness :
    ∃ e, lookupAssoc (loadAuthConfig
        [("X_API_KEY".data, "k1".data), ("X_BEARER_TOKEN".data, "t1".data)])
        "x".data = some e ∧ e.type = "bearer".data :=
  C8_bearer_monotone.2.2.1
    [("X_API_KEY".data, "k1".data), ("X_BEARER_TOKEN".data, "t1".data)]
    "x".data
    ⟨("X_BEARER_TOKEN".data, "t1".data), by decide, by decide, by decide⟩

/-! ## First-occurrence replacement lemmas -/

/-- `pat` occurs as a contiguous substring of `s`. -/
def occursIn (pat s : Str) : Prop := ∃ l r, s = l ++ pat ++ r

lemma startsWithStr_iff (s pat : Str) :
    startsWithStr s pat = true ↔ ∃ t, s = pat ++ t := by
  induction pat generalizing s with
  | nil => simp [startsWithStr]
  | cons p ps ih =>
    cases s with
    | nil => simp [startsWithStr]
    | cons c cs =>
      simp only [startsWithStr, Bool.and_eq_true, beq_iff_eq, ih, List.cons_append]
      constructor
      · rintro ⟨rfl, t, rfl⟩
        exact ⟨t, rfl⟩
      · rintro ⟨t, ht⟩
        injection ht with h1 h2
        exact ⟨h1, t, h2⟩

lemma occursIn_of_startsWith {s pat : Str} (h : startsWithStr s pat = true) :
    occursIn pat s := by
  obtain ⟨t, ht⟩ := (startsWithStr_iff s pat).mp h
  exact ⟨[], t, by simp [ht]⟩

lemma occursIn_cons {pat s : Str} (c : Char) (h : occursIn pat s) :
    occursIn pat (c :: s) := by
  obtain ⟨l, r, rfl⟩ := h
  exact ⟨c :: l, r, rfl⟩

lemma replaceFirst_of_not_occurs {s pat rep : Str} (h : ¬ occursIn pat s) :
    replaceFirst s pat rep = s := by
  induction s with
  | nil =>
    cases hpat : pat with
    | nil => exact absurd ⟨[], [], rfl⟩ (hpat ▸ h)
    | cons p ps => simp [replaceFirst]
  | cons c cs ih =>
    unfold replaceFirst
    rw [if_neg (fun hsw => h (occursIn_of_startsWith hsw))]
    rw [ih (fun hocc => h (occursIn_cons c hocc))]

lemma not_occurs_of_head_not_mem {hc : Char} {pat' s : Str} (h : hc ∉ s) :
    ¬ occursIn (hc :: pat') s := by
  rintro ⟨l, r, rfl⟩
  exact h (by simp)

lemma startsWith_self_append (pat t : Str) : startsWithStr (pat ++ t) pat = true :=
  (startsWithStr_iff _ _).mpr ⟨t, rfl⟩

lemma replaceFirst_append_first {pat b rep : Str} {hc : Char}
    (hpat : pat.head? = some hc) :
    ∀ a : Str, hc ∉ a → replaceFirst (a ++ pat ++ b) pat rep = a ++ rep ++ b := by
  cases pat with
  | nil => simp at hpat
  | cons p pt =>
    have hphc : p = hc := by simpa using hpat
    subst hphc
    intro a
    induction a with
    | nil =>
      intro _
      simp only [List.nil_append, List.cons_append]
      unfold replaceFirst
      rw [if_pos (by
        have := startsWith_self_append (p :: pt) b
        simp only [List.cons_append] at this
        simp [this])]
      have hdrop : ((p :: pt) ++ b).drop (p :: pt).length = b := List.drop_left _ _
      simp only [List.cons_append] at hdrop
      simp [hdrop]
    | cons c a' ih =>
      intro ha
      have hnc : p ≠ c := by
        intro hpc
        exact ha (hpc ▸ List.mem_cons_self _ _)
      have hsw : startsWithStr (c :: (a' ++ p :: (pt ++ b))) (p :: pt) = false := by
        cases hE : startsWithStr (c :: (a' ++ p :: (pt ++ b))) (p :: pt) with
        | false => rfl
        | true =>
          obtain ⟨t, ht⟩ := (startsWithStr_iff _ _).mp hE
          simp only [List.cons_append] at ht
          injection ht with h1 h2
          exact absurd h1.symm hnc
      simp only [List.cons_append]
      unfold replaceFirst
      rw [if_neg (by simp [hsw])]
      have := ih (fun hmem => ha (List.mem_cons_of_mem _ hmem))
      simp only [List.cons_append] at this ⊢
      rw [this]

lemma occurs_append_right {hc : Char} {pat' b : Str} :
    ∀ a : Str, hc ∉ a → occursIn (hc :: pat') (a ++ b) → occursIn (hc :: pat') b := by
  intro a
  induction a with
  | nil =>
    intro _ h
    simpa using h
  | cons c a' ih =>
    intro ha hocc
    obtain ⟨l, r, heq⟩ := hocc
    cases l with
    | nil =>
      simp only [List.cons_append, List.nil_append] at heq
      injection heq with h1 h2
      exact absurd h1.symm (fun hch => ha (hch ▸ List.mem_cons_self _ _))
    | cons d l' =>
      simp only [List.cons_append] at heq
      injection heq with h1 h2
      exact ih (fun hm => ha (List.mem_cons_of_mem _ hm)) ⟨l', r, h2⟩

lemma placeholder_in_idseg {nm : Str} :
    occursIn (placeholder nm) (placeholder "id".data) → nm = "id".data := by
  rintro ⟨l, r, heq⟩
  have hs : placeholder "id".data = '{' :: 'i' :: 'd' :: '}' :: [] := by decide
  rw [hs] at heq
  cases l with
  | nil =>
    simp only [placeholder, List.nil_append, List.cons_append, List.append_assoc,
      List.singleton_append] at heq
    injection heq with h1 h2
    cases nm with
    | nil =>
      simp only [List.nil_append] at h2
      injection h2 with h3 h4
      exact absurd h3 (by decide)
    | cons c1 nm1 =>
      simp only [List.cons_append] at h2
      injection h2 with h3 h4
      cases nm1 with
      | nil =>
        simp only [List.nil_append] at h4
        injection h4 with h5 h6
        exact absurd h5 (by decide)
      | cons c2 nm2 =>
        simp only [List.cons_append] at h4
        injection h4 with h5 h6
        cases nm2 with
        | nil =>
          rw [← h3, ← h5]
        | cons c3 nm3 =>
          simp only [List.cons_append] at h6
          injection h6 with h7 h8
          have : nm3 ++ '}' :: r ≠ [] := by simp
          exact absurd h8.symm this
  | cons d l' =>
    simp only [placeholder, List.cons_append] at heq
    injection heq with h1 h2
    have hmem : '{' ∈ l' ++ ('{' :: (nm ++ ['}'])) ++ r := by simp
    rw [← h2] at hmem
    exact absurd hmem (by decide)

lemma not_mem_strip {c : Char} {s : Str} (h : c ∉ s) : c ∉ stripTrailingSlash s := by
  unfold stripTrailingSlash
  split_ifs
  · exact fun hm => h (List.dropLast_subset s hm)
  · exact h

lemma buildUrl_foldl_inv (args : List (Str × JsValue)) (P : Str → Prop) :
    ∀ ps : List ToolParameter,
      (∀ url p, p ∈ ps → P url →
        P (if p.loc = "path".data then
            match lookupAssoc args p.name with
            | some v => replaceFirst url (placeholder p.name)
                (encodeURIComponent (jsToString v))
            | none => url
          else url)) →
      ∀ url, P url →
      P (ps.foldl (fun url p =>
          if p.loc = "path".data then
            match lookupAssoc args p.name with
            | some v => replaceFirst url (placeholder p.name)
                (encodeURIComponent (jsToString v))
            | none => url
          else url) url) := by
  intro ps
  induction ps with
  | nil => intro _ url h; exact h
  | cons q qs ih =>
    intro hstep url h
    exact ih (fun url' p hp hP => hstep url' p (List.mem_cons_of_mem q hp) hP) _
      (hstep url q (List.mem_cons_self q qs) h)

lemma urlstate_not_mem_42 {A : Str} (hA : '{' ∉ A) : '{' ∉ A ++ "42".data := by
  intro hm
  rcases List.mem_append.mp hm with hm1 | hm2
  · exact hA hm1
  · exact absurd hm2 (by decide)

lemma urlstate_step_state2 (args : List (Str × JsValue)) (A : Str) (hA : '{' ∉ A)
    (p : ToolParameter) (url : Str) (h : url = A ++ "42".data) :
    (if p.loc = "path".data then
      match lookupAssoc args p.name with
      | some v => replaceFirst url (placeholder p.name)
          (encodeURIComponent (jsToString v))
      | none => url
     else url) = A ++ "42".data := by
  by_cases hloc : p.loc = "path".data
  · rw [if_pos hloc]
    cases hlk : lookupAssoc args p.name with
    | none => exact h
    | some v =>
      rw [h]
      exact replaceFirst_of_not_occurs
        (not_occurs_of_head_not_mem (urlstate_not_mem_42 hA))
  · rw [if_neg hloc]; exact h

lemma urlstate_step_id_subst (A : Str) (hA : '{' ∉ A) (url : Str)
    (h : url = A ++ placeholder "id".data) :
    replaceFirst url (placeholder "id".data)
      (encodeURIComponent (jsToString (.vNum 42))) = A ++ "42".data := by
  rw [h]
  have henc : encodeURIComponent (jsToString (.vNum 42)) = "42".data := by decide
  rw [henc]
  have := @replaceFirst_append_first (placeholder "id".data) [] "42".data '{' rfl A hA
  simp only [List.append_nil] at this
  exact this

lemma urlstate_step_preserve (args : List (Str × JsValue)) (A : Str) (hA : '{' ∉ A)
    (hlook : lookupAssoc args "id".data = some (.vNum 42))
    (p : ToolParameter) (url : Str)
    (h : url = A ++ placeholder "id".data ∨ url = A ++ "42".data) :
    (if p.loc = "path".data then
      match lookupAssoc args p.name with
      | some v => replaceFirst url (placeholder p.name)
          (encodeURIComponent (jsToString v))
      | none => url
     else url) = A ++ placeholder "id".data ∨
    (if p.loc = "path".data then
      match lookupAssoc args p.name with
      | some v => replaceFirst url (placeholder p.name)
          (encodeURIComponent (jsToString v))
      | none => url
     else url) = A ++ "42".data := by
  rcases h with h1 | h2
  · by_cases hloc : p.loc = "path".data
    · rw [if_pos hloc]
      cases hlk : lookupAssoc args p.name with
      | none => exact Or.inl h1
      | some v =>
        by_cases hpn : p.name = "id".data
        · right
          rw [hpn] at hlk
          rw [hlk] at hlook
          have hv : v = .vNum 42 := Option.some.inj hlook
          rw [hpn, hv]
          exact urlstate_step_id_subst A hA url h1
        · left
          rw [h1]
          refine replaceFirst_of_not_occurs (fun hocc => hpn ?_)
          exact placeholder_in_idseg
            (@occurs_append_right '{' (p.name ++ ['}']) (placeholder "id".data) A hA hocc)
    · rw [if_neg hloc]; exact Or.inl h1
  · exact Or.inr (urlstate_step_state2 args A hA p url h2)

lemma urlstate_step_id (args : List (Str × JsValue)) (A : Str) (hA : '{' ∉ A)
    (hlook : lookupAssoc args "id".data = some (.vNum 42))
    (p : ToolParameter) (url : Str)
    (h : url = A ++ placeholder "id".data ∨ url = A ++ "42".data)
    (hname : p.name = "id".data) (hloc : p.loc = "path".data) :
    (if p.loc = "path".data then
      match lookupAssoc args p.name with
      | some v => replaceFirst url (placeholder p.name)
          (encodeURIComponent (jsToString v))
      | none => url
     else url) = A ++ "42".data := by
  rcases h with h1 | h2
  · rw [if_pos hloc, hname, hlook]
    exact urlstate_step_id_subst A hA url h1
  · exact urlstate_step_state2 args A hA p url h2

/-! ## Claim C6: path-parameter substitution -/

/-- Claim C6: for a tool with path template `/pet/{id}` (and a base URL
free of placeholders) carrying an `id` path parameter, an `id` argument
of 42 always produces a URL ending in `/pet/42`, whatever other
parameters and arguments are present and wherever the `id` parameter
sits in the parameter order; and when no path parameter has an argument,
every placeholder is left verbatim. -/
theorem C6_path_substitution :
    (∀ (tool : GeneratedTool) (args : List (Str × JsValue)),
        tool.path = "/pet/{id}".data →
        '{' ∉ tool.baseUrl →
        (∃ param, param ∈ tool.parameters ∧ param.name = "id".data ∧
          param.loc = "path".data) →
        lookupAssoc args "id".data = some (.vNum 42) →
        buildUrl tool args = stripTrailingSlash tool.baseUrl ++ "/pet/42".data) ∧
    (∀ (tool : GeneratedTool) (args : List (Str × JsValue)),
        (∀ param ∈ tool.parameters, param.loc = "path".data →
          lookupAssoc args param.name = none) →
        buildUrl tool args = stripTrailingSlash tool.baseUrl ++ tool.path) := by
  constructor
  · intro tool args hpath hbase hex hlook
    obtain ⟨pid, hmem, hname, hloc⟩ := hex
    obtain ⟨l₁, l₂, hsplit⟩ := List.append_of_mem hmem
    have hA : '{' ∉ stripTrailingSlash tool.baseUrl ++ "/pet/".data := by
      intro hm
      rcases List.mem_append.mp hm with hm1 | hm2
      · exact not_mem_strip hbase hm1
      · exact absurd hm2 (by decide)
    have hinit : stripTrailingSlash tool.baseUrl ++ tool.path =
        (stripTrailingSlash tool.baseUrl ++ "/pet/".data) ++ placeholder "id".data := by
      rw [hpath, List.append_assoc]
      congr 1
    unfold buildUrl
    rw [hsplit, hinit, List.foldl_append, List.foldl_cons]
    have h1 := buildUrl_foldl_inv args
      (fun url => url = (stripTrailingSlash tool.baseUrl ++ "/pet/".data) ++
          placeholder "id".data ∨
        url = (stripTrailingSlash tool.baseUrl ++ "/pet/".data) ++ "42".data)
      l₁
      (fun url p _ hP => urlstate_step_preserve args _ hA hlook p url hP)
      _ (Or.inl rfl)
    have h2 := urlstate_step_id args _ hA hlook pid _ h1 hname hloc
    rw [h2]
    have h3 := buildUrl_foldl_inv args
      (fun url => url = (stripTrailingSlash tool.baseUrl ++ "/pet/".data) ++ "42".data)
      l₂
      (fun url p _ hP => urlstate_step_state2 args _ hA p url hP)
      _ rfl
    rw [h3, List.append_assoc]
    congr 1
  · intro tool args habs
    unfold buildUrl
    exact buildUrl_foldl_inv args
      (fun url => url = stripTrailingSlash tool.baseUrl ++ tool.path)
      tool.parameters
      (fun url p hp hP => by
        by_cases hloc : p.loc = "path".data
        · rw [if_pos hloc, habs p hp hloc]
          exact hP
        · rw [if_neg hloc]
          exact hP)
      _ rfl

/-- Witness for `C6_path_substitution`: the Petstore-style tool at
`id = 42`. -/
theorem C6_path_substitution_witness :
    buildUrl
        { name := "petstore_getPetById".data, description := [],
          method := "GET".data, path := "/pet/{id}".data,
          parameters :=
            [{ name := "verbose".data, loc := "query".data, required := false,
               schema := .vObj [], description := none },
             { name := "id".data, loc := "path".data, required := true,
               schema := .vObj [], description := none }],
          requestBody := none, baseUrl := "https://petstore.example/v2".data }
        [("verbose".data, .vBool true), ("id".data, .vNum 42)] =
      stripTrailingSlash "https://petstore.example/v2".data ++ "/pet/42".data :=
  C6_path_substitution.1
    { name := "petstore_getPetById".data, description := [],
      method := "GET".data, path := "/pet/{id}".data,
      parameters :=
        [{ name := "verbose".data, loc := "query".data, required := false,
           schema := .vObj [], description := none },
         { name := "id".data, loc := "path".data, required := true,
           schema := .vObj [], description := none }],
      requestBody := none, baseUrl := "https://petstore.example/v2".data }
    [("verbose".data, .vBool true), ("id".data, .vNum 42)]
    rfl (by decide)
    ⟨{ name := "id".data, loc := "path".data, required := true,
       schema := .vObj [], description := none },
      List.mem_cons_of_mem _ (List.mem_cons_self _ _), rfl, rfl⟩
    rfl

/-! ## Claim C10: duplicate placeholders are substituted once -/

/-- Claim C10: when the path template contains the same `{id}`
placeholder twice, a single `id` path parameter substitutes only the
first occurrence; the later occurrence stays in the URL verbatim. -/
theorem C10_first_occurrence_only :
    ∀ (tool : GeneratedTool) (args : List (Str × JsValue)) (p1 p2 p3 : Str)
      (pid : ToolParameter) (v : JsValue),
      tool.path = p1 ++ placeholder "id".data ++ p2 ++ placeholder "id".data ++ p3 →
      tool.parameters = [pid] → pid.name = "id".data → pid.loc = "path".data →
      '{' ∉ tool.baseUrl → '{' ∉ p1 →
      lookupAssoc args "id".data = some v →
      buildUrl tool args =
        stripTrailingSlash tool.baseUrl ++ p1 ++
          encodeURIComponent (jsToString v) ++ p2 ++ placeholder "id".data ++ p3 := by
  intro tool args p1 p2 p3 pid v hpath hparams hname hloc hbase hp1 hlook
  have hA : '{' ∉ stripTrailingSlash tool.baseUrl ++ p1 := by
    intro hm
    rcases List.mem_append.mp hm with hm1 | hm2
    · exact not_mem_strip hbase hm1
    · exact hp1 hm2
  unfold buildUrl
  rw [hparams, List.foldl_cons, List.foldl_nil, if_pos hloc, hname, hlook, hpath]
  have hre := @replaceFirst_append_first (placeholder "id".data)
    (p2 ++ placeholder "id".data ++ p3)
    (encodeURIComponent (jsToString v)) '{' rfl
    (stripTrailingSlash tool.baseUrl ++ p1) hA
  have hal : stripTrailingSlash tool.baseUrl ++
      (p1 ++ placeholder "id".data ++ p2 ++ placeholder "id".data ++ p3) =
      (stripTrailingSlash tool.baseUrl ++ p1) ++ placeholder "id".data ++
        (p2 ++ placeholder "id".data ++ p3) := by
    simp [List.append_assoc]
  rw [hal]
  show replaceFirst
      (stripTrailingSlash tool.baseUrl ++ p1 ++ placeholder "id".data ++
        (p2 ++ placeholder "id".data ++ p3))
      (placeholder "id".data) (encodeURIComponent (jsToString v)) =
    stripTrailingSlash tool.baseUrl ++ p1 ++ encodeURIComponent (jsToString v) ++
      p2 ++ placeholder "id".data ++ p3
  rw [hre]
  simp [List.append_assoc]

/-- Witness for `C10_first_occurrence_only`: the path `/x/{id}/y/{id}`
with argument 42 yields `/x/42/y/{id}`. -/
theorem C10_first_occurrence_only_witness :
    buildUrl
        { name := "t".data, description := [], method := "GET".data,
          path := "/x/{id}/y/{id}".data,
          parameters :=
            [{ name := "id".data, loc := "path".data, required := true,
               schema := .vObj [], description := none }],
          requestBody := none, baseUrl := "http://h".data }
        [("id".data, .vNum 42)] =
      stripTrailingSlash "http://h".data ++ "/x/".data ++
        encodeURIComponent (jsToString (.vNum 42)) ++ "/y/".data ++
        placeholder "id".data ++ [] :=
  C10_first_occurrence_only
    { name := "t".data, description := [], method := "GET".data,
      path := "/x/{id}/y/{id}".data,
      parameters :=
        [{ name := "id".data, loc := "path".data, required := true,
           schema := .vObj [], description := none }],
      requestBody := none, baseUrl := "http://h".data }
    [("id".data, .vNum 42)] "/x/".data "/y/".data []
    { name := "id".data, loc := "path".data, required := true,
      schema := .vObj [], description := none }
    (.vNum 42)
    (by decide) rfl rfl rfl (by decide) (by decide) rfl
